import Mathlib

/-!
Verification development for the job-posting fraud-detector demo page.

The repository contains two near-identical variants of `app.js` (a
graph-model variant and a layers-model variant of class `JobFakeDetector`)
plus a second script with a remote `/predict` form handler and a small EDA
renderer.  The definitions below are shallow embeddings of the functions
of those files: text is a `List Char`, JavaScript objects used as
dictionaries are insertion-ordered association lists, numbers that the
code only ever produces as exact values (token ids, counts, lengths) are
`Nat`, probabilities are `ℚ`, and code that can throw is modelled with
`Option`/`Except` or with an explicit outcome parameter for the awaited
external calls.  JavaScript quirks that matter to the claims are kept:
`value || 1` treating `0` as falsy, `Array(n)` throwing on negative `n`,
and `Object.entries` enumerating array-index-like keys first in ascending
numeric order.  The prototype chain of plain objects is abstracted away
(dictionaries behave as finite maps).
-/

set_option maxRecDepth 4000

namespace JobFake

/-- ASCII lowercasing, as `String.prototype.toLowerCase` acts on the
ASCII range (the data relevant here). -/
def jsLower (c : Char) : Char :=
  if 'A' ≤ c ∧ c ≤ 'Z' then Char.ofNat (c.toNat + 32) else c

/-- A JavaScript `\w` word character: `[A-Za-z0-9_]`. -/
def isWordChar (c : Char) : Bool :=
  c.isAlpha || c.isDigit || c == '_'

/-- Accumulator for `extractTokens`: walks the characters, collecting the
current word-character run (reversed) in `acc`. -/
def extractTokensAux : List Char → List Char → List (List Char)
  | [], acc => if acc.isEmpty then [] else [acc.reverse]
  | c :: cs, acc =>
    if isWordChar c then
      extractTokensAux cs (c :: acc)
    else if acc.isEmpty then
      extractTokensAux cs []
    else
      acc.reverse :: extractTokensAux cs []

/-- Model of `text.match(/\b\w+\b/g) || []`: the maximal runs of word characters,
in order. -/
def extractTokens (l : List Char) : List (List Char) :=
  extractTokensAux l []

/-- JavaScript `String.prototype.trim` (whitespace stripped from both
ends). -/
def jsTrim (s : List Char) : List Char :=
  ((s.dropWhile Char.isWhitespace).reverse.dropWhile Char.isWhitespace).reverse

/-- Model of `Array.prototype.join(' ')`. -/
def joinSep : List (List Char) → List Char
  | [] => []
  | [x] => x
  | x :: y :: t => x ++ ' ' :: joinSep (y :: t)

/-- The tokenizer word index `word_index` from `frontend_config.json`:
a JSON object used as a dictionary, modelled as an insertion-ordered
association list. -/
abbrev WordIndex : Type := List (List Char × Nat)

/-- Dictionary lookup in the word index. -/
def lookupA : List (List Char × Nat) → List Char → Option Nat
  | [], _ => none
  | (k, v) :: rest, w => if k = w then some v else lookupA rest w

/-- Model of `this.wordIndex[word] || 1`: a present id is used unless it is the
falsy `0`; an absent word maps to the OOV id `1`. -/
def lookupOr1 (wi : WordIndex) (w : List Char) : Nat :=
  match lookupA wi w with
  | some n => if n = 0 then 1 else n
  | none => 1

/-- Model of `words.map(word => this.wordIndex[word] || 1)` applied to the tokens
of the lowercased text. -/
def textToSequence (wi : WordIndex) (text : List Char) : List Nat :=
  (extractTokens (text.map jsLower)).map (lookupOr1 wi)

/-- Model of `tokenizeText` in the graph-model variant (`src/app.js` lines
241-262): pad with `Array(Math.max(this.maxLen - sequence.length, 0))`,
slice to `maxLen`, then force the hardcoded `fixedLen = 300` by slicing
or zero-padding. -/
def tokenizeText_graph (wi : WordIndex) (maxLen : Nat) (text : List Char) : List Nat :=
  let sequence := textToSequence wi text
  let padded := sequence ++ List.replicate (maxLen - sequence.length) 0
  let inputArray := padded.take maxLen
  if 300 < inputArray.length then inputArray.take 300
  else inputArray ++ List.replicate (300 - inputArray.length) 0

/-- Model of `tokenizeText` in the layers-model variant (`src/app.js` lines
554-562): `sequence.concat(Array(this.maxLen - sequence.length).fill(0))`
has no `Math.max` guard, so when the sequence is longer than `maxLen` the
code evaluates `Array(negative)`, which throws a `RangeError`; this is
modelled as `none`.  Otherwise the padded sequence is sliced to
`maxLen`. -/
def tokenizeText_layers (wi : WordIndex) (maxLen : Nat) (text : List Char) :
    Option (List Nat) :=
  let sequence := textToSequence wi text
  if maxLen < sequence.length then none
  else some ((sequence ++ List.replicate (maxLen - sequence.length) 0).take maxLen)

theorem lookupA_mem {wi : List (List Char × Nat)} {w : List Char} {n : Nat}
    (h : lookupA wi w = some n) : (w, n) ∈ wi := by
  induction wi with
  | nil => simp [lookupA] at h
  | cons p rest ih =>
    obtain ⟨k, v⟩ := p
    by_cases hk : k = w
    · subst hk
      simp [lookupA] at h
      simp [h]
    · simp [lookupA, hk] at h
      exact List.mem_cons_of_mem _ (ih h)

theorem take_of_append_replicate_le {s : List Nat} {m : Nat} (h : s.length ≤ m) :
    (s ++ List.replicate (m - s.length) 0).take m = s ++ List.replicate (m - s.length) 0 := by
  apply List.take_of_length_le
  simp
  omega

/-- C1: in the graph-model variant `tokenizeText` always returns exactly
300 ids, but in the layers-model variant `Array(this.maxLen -
sequence.length)` throws a `RangeError` as soon as the token count
exceeds `maxLen` (so the claimed truncation `slice(0, this.maxLen)` is
dead code there): with `maxLen = 2` and text `"a b c"` (three tokens) the
layers variant throws instead of returning the truncated `[1, 1]`, while
the graph variant returns a full 300-id sequence. -/
theorem tokenize_layers_overflow_bug :
    (∀ (wi : WordIndex) (maxLen : Nat) (text : List Char),
      (tokenizeText_graph wi maxLen text).length = 300) ∧
    tokenizeText_layers [] 2 "a b c".data = none ∧
    tokenizeText_graph [] 2 "a b c".data = [1, 1] ++ List.replicate 298 0 := by
  refine ⟨?_, by decide, by decide⟩
  intro wi maxLen text
  simp only [tokenizeText_graph]
  split
  · next h =>
    simp only [List.length_take, List.length_append, List.length_replicate] at h ⊢
    omega
  · next h =>
    simp only [List.length_take, List.length_append, List.length_replicate] at h ⊢
    omega

/-- C2: the encoder lowercases the text, extracts word tokens, maps a
token found in the word index to its configured (positive) id and an
absent token to the OOV id 1, and appends only zero padding: in the
layers variant the result is the id sequence zero-padded to `maxLen`
(whenever it fits), and in the graph variant it is the id sequence
zero-padded to the hardcoded 300.  Instantiated at `wordIndex =
{urgent: 5, apply: 7}`, `maxLen = 4`, the encoding of
`"Urgent Apply Now"` is `[5, 7, 1, 0]` (see the witness). -/
theorem tokenize_encode_spec (wi : WordIndex) (maxLen : Nat) (text : List Char)
    (hpos : ∀ p ∈ wi, 0 < p.2) :
    (∀ w n, lookupA wi w = some n → lookupOr1 wi w = n) ∧
    (∀ w, lookupA wi w = none → lookupOr1 wi w = 1) ∧
    textToSequence wi text = (extractTokens (text.map jsLower)).map (lookupOr1 wi) ∧
    ((textToSequence wi text).length ≤ maxLen →
      tokenizeText_layers wi maxLen text =
        some (textToSequence wi text ++
          List.replicate (maxLen - (textToSequence wi text).length) 0)) ∧
    ((textToSequence wi text).length ≤ maxLen → (textToSequence wi text).length ≤ 300 →
      tokenizeText_graph wi maxLen text =
        textToSequence wi text ++
          List.replicate (300 - (textToSequence wi text).length) 0) := by
  refine ⟨?_, ?_, rfl, ?_, ?_⟩
  · intro w n h
    have hn : 0 < n := hpos (w, n) (lookupA_mem h)
    simp only [lookupOr1, h]
    rw [if_neg (by omega)]
  · intro w h
    simp only [lookupOr1, h]
  · intro hle
    simp only [tokenizeText_layers]
    rw [if_neg (by omega), take_of_append_replicate_le hle]
  · intro h1 h2
    simp only [tokenizeText_graph]
    rw [take_of_append_replicate_le h1]
    have hplen : (textToSequence wi text ++
        List.replicate (maxLen - (textToSequence wi text).length) 0).length = maxLen := by
      simp only [List.length_append, List.length_replicate]
      omega
    rcases le_or_lt maxLen 300 with hm | hm
    · rw [if_neg (by rw [hplen]; omega), hplen, List.append_assoc, ← List.replicate_add]
      congr 2
      omega
    · rw [if_pos (by rw [hplen]; omega), List.take_append_eq_append_take,
        List.take_of_length_le h2, List.take_replicate]
      congr 2
      omega

/-- The concrete word index of the C2 end-to-end example. -/
def wiEx : WordIndex := [("urgent".data, 5), ("apply".data, 7)]

/-- Witness for C2: the end-to-end example of the claim, obtained by
instantiating `tokenize_encode_spec`. -/
theorem tokenize_encode_spec_witness :
    tokenizeText_layers wiEx 4 "Urgent Apply Now".data = some [5, 7, 1, 0] := by
  have h := (tokenize_encode_spec wiEx 4 "Urgent Apply Now".data (by decide)).2.2.2.1 (by decide)
  exact h.trans (by decide)

/-- One parsed CSV row (`Papa.parse` with `header: true`).  A field that
is absent behaves like the empty string everywhere the code touches it
(`filter(Boolean)`, `!row[field]`, `join`), so fields are plain character
lists with `[]` for absent/empty. -/
structure DatasetRow where
  title : List Char
  description : List Char
  company_profile : List Char
  requirements : List Char
  benefits : List Char
  fraudulent : List Char
deriving DecidableEq, Repr

structure ClassDistribution where
  real : Nat
  fake : Nat
  total : Nat
deriving DecidableEq, Repr

structure TextLengthEntry where
  length : Nat
  isFake : Bool
deriving DecidableEq, Repr

/-- Missing-value counters for the five text fields of one class. -/
structure FieldCounts where
  title : Nat
  description : Nat
  company_profile : Nat
  requirements : Nat
  benefits : Nat
deriving DecidableEq, Repr

structure MissingValues where
  real : FieldCounts
  fake : FieldCounts
deriving DecidableEq, Repr

structure EdaSummary where
  classDistribution : ClassDistribution
  textLengths : List TextLengthEntry
  missingValues : MissingValues
  realWords : List (List Char × Nat)
  fakeWords : List (List Char × Nat)
deriving DecidableEq, Repr

/-- The five text fields in the order the EDA code lists them. -/
def rowTextFields (row : DatasetRow) : List (List Char) :=
  [row.title, row.description, row.company_profile, row.requirements, row.benefits]

/-- One `textLengths` entry (`computeEdaStats`, `src/app.js` lines
92-102): `[...fields].filter(Boolean).join(' ').length`, tagged with
`row.fraudulent === '1'`. -/
def textLengthEntry (row : DatasetRow) : TextLengthEntry :=
  { length := (joinSep ((rowTextFields row).filter (fun s => !s.isEmpty))).length,
    isFake := decide (row.fraudulent = "1".data) }

/-- Model of `!row[field] || row[field].trim() === ''` in `computeMissingValues`:
with absent modelled as `[]`, this is exactly "trims to empty". -/
def isMissingField (s : List Char) : Bool :=
  s.isEmpty || (jsTrim s).isEmpty

/-- The per-field missing counters accumulated over a class's rows. -/
def fieldCountsOf (rows : List DatasetRow) : FieldCounts :=
  { title := rows.countP (fun r => isMissingField r.title),
    description := rows.countP (fun r => isMissingField r.description),
    company_profile := rows.countP (fun r => isMissingField r.company_profile),
    requirements := rows.countP (fun r => isMissingField r.requirements),
    benefits := rows.countP (fun r => isMissingField r.benefits) }

/-- Model of `computeMissingValues` (`src/app.js` lines 117-134): the group is
`fake` exactly when `row.fraudulent === '1'`, otherwise `real`. -/
def computeMissingValues (data : List DatasetRow) : MissingValues :=
  { real := fieldCountsOf (data.filter (fun r => !decide (r.fraudulent = "1".data))),
    fake := fieldCountsOf (data.filter (fun r => decide (r.fraudulent = "1".data))) }

/-- Model of `wordFreq[word] = (wordFreq[word] || 0) + 1` on a dictionary object:
update in place if the key exists, otherwise append at the end
(insertion order). -/
def bump (m : List (List Char × Nat)) (w : List Char) : List (List Char × Nat) :=
  match m with
  | [] => [(w, 1)]
  | (k, v) :: rest => if k = w then (k, v + 1) :: rest else (k, v) :: bump rest w

/-- The text whose words are counted per job (`extractWords`, `src/app.js`
lines 136-148): `[title, description, company_profile]` filtered, joined
with spaces, lowercased. -/
def extractWordsText (job : DatasetRow) : List Char :=
  (joinSep (([job.title, job.description, job.company_profile]).filter
    (fun s => !s.isEmpty))).map jsLower

/-- The whole `wordFreq` dictionary after the `jobs.forEach` loop, in
insertion (first-encountered) order. -/
def wordFreqTable (jobs : List DatasetRow) : List (List Char × Nat) :=
  jobs.foldl (fun m job => (extractTokens (extractWordsText job)).foldl bump m) []

/-- The numeric value of a digit string. -/
def digitsToNat (w : List Char) : Nat :=
  w.foldl (fun n c => n * 10 + (c.toNat - 48)) 0

/-- Whether a string is an ECMAScript array index: the canonical decimal
form of an integer in `[0, 2^32 - 1)`.  Such keys are enumerated first by
`Object.entries`, in ascending numeric order. -/
def isArrayIndex (w : List Char) : Bool :=
  match w with
  | [] => false
  | c :: cs =>
    (c :: cs).all Char.isDigit && (decide (c ≠ '0') || cs.isEmpty) &&
      decide (digitsToNat (c :: cs) < 4294967295)

/-- Ascending order on entry keys read as numbers (used only on
array-index keys, which are pairwise distinct numbers). -/
def keyLe (a b : List Char × Nat) : Prop := digitsToNat a.1 ≤ digitsToNat b.1

instance : DecidableRel keyLe := fun a b =>
  inferInstanceAs (Decidable (digitsToNat a.1 ≤ digitsToNat b.1))

instance : IsTotal (List Char × Nat) keyLe :=
  ⟨fun a b => Nat.le_total (digitsToNat a.1) (digitsToNat b.1)⟩

instance : IsTrans (List Char × Nat) keyLe :=
  ⟨fun _ _ _ hab hbc => Nat.le_trans hab hbc⟩

/-- The `Object.entries` enumeration order on a string-keyed dictionary:
array-index-like keys first, in ascending numeric order, then the
remaining keys in insertion order. -/
def jsEntries (m : List (List Char × Nat)) : List (List Char × Nat) :=
  List.insertionSort keyLe (m.filter (fun e => isArrayIndex e.1)) ++
    m.filter (fun e => !isArrayIndex e.1)

/-- Descending-frequency order: the comparator `(a, b) => b[1] - a[1]`
sorts entries so that each entry's count is at least the next one's. -/
def freqGe (a b : List Char × Nat) : Prop := b.2 ≤ a.2

instance : DecidableRel freqGe := fun a b =>
  inferInstanceAs (Decidable (b.2 ≤ a.2))

instance : IsTotal (List Char × Nat) freqGe :=
  ⟨fun a b => Nat.le_total b.2 a.2⟩

instance : IsTrans (List Char × Nat) freqGe :=
  ⟨fun _ _ _ hab hbc => Nat.le_trans hbc hab⟩

/-- The stable sort performed by `Array.prototype.sort` (stable per
ES2019) with comparator `(a, b) => b[1] - a[1]`. -/
def sortByFreqDesc (l : List (List Char × Nat)) : List (List Char × Nat) :=
  List.insertionSort freqGe l

/-- Model of `extractWords` (`src/app.js` lines 136-153):
`Object.entries(wordFreq).sort((a, b) => b[1] - a[1]).slice(0, 100)`. -/
def extractWords (jobs : List DatasetRow) : List (List Char × Nat) :=
  (sortByFreqDesc (jsEntries (wordFreqTable jobs))).take 100

/-- Model of `computeEdaStats` (`src/app.js` lines 88-115). -/
def computeEdaStats (data : List DatasetRow) : EdaSummary :=
  { classDistribution :=
      { real := (data.filter (fun r => decide (r.fraudulent = "0".data))).length,
        fake := (data.filter (fun r => decide (r.fraudulent = "1".data))).length,
        total := data.length },
    textLengths := data.map textLengthEntry,
    missingValues := computeMissingValues data,
    realWords := extractWords (data.filter (fun r => decide (r.fraudulent = "0".data))),
    fakeWords := extractWords (data.filter (fun r => decide (r.fraudulent = "1".data))) }

theorem joinSep_length (ls : List (List Char)) :
    (joinSep ls).length = (ls.map List.length).sum + (ls.length - 1) := by
  match ls with
  | [] => simp [joinSep]
  | [x] => simp [joinSep]
  | x :: y :: t =>
    have ih := joinSep_length (y :: t)
    simp only [joinSep, List.length_append, List.length_cons, ih, List.map_cons,
      List.sum_cons]
    omega

/-- The row of the C3 counterexample: its `fraudulent` field is the
out-of-vocabulary label `"2"`. -/
def rowU : DatasetRow :=
  { title := [], description := "x".data, company_profile := [], requirements := [],
    benefits := [], fraudulent := "2".data }

/-- C3 counterexample: on a single row labelled `"2"`,
`classDistribution.total` is 1 but `real + fake` is 0, refuting
`total == real + fake` (and with it "real counts all other rows"). -/
theorem classDistribution_total_counterexample :
    (computeEdaStats [rowU]).classDistribution.total = 1 ∧
    (computeEdaStats [rowU]).classDistribution.real +
      (computeEdaStats [rowU]).classDistribution.fake = 0 := by
  constructor
  · rfl
  · decide

theorem strData0 : "0".data = ['0'] := rfl

theorem strData1 : "1".data = ['1'] := rfl

theorem length_eq_countP01 (data : List DatasetRow) :
    (∀ r ∈ data, r.fraudulent = "0".data ∨ r.fraudulent = "1".data) →
    data.length = data.countP (fun r => decide (r.fraudulent = "0".data)) +
      data.countP (fun r => decide (r.fraudulent = "1".data)) := by
  induction data with
  | nil => intro _; rfl
  | cons r rest ih =>
    intro hall
    have hr := hall r (List.mem_cons_self r rest)
    have ih2 := ih (fun x hx => hall x (List.mem_cons_of_mem r hx))
    simp only [strData0, strData1] at hr ih2 ⊢
    simp only [List.countP_cons, List.length_cons]
    rcases hr with h0 | h1
    · have hne1 : ¬ (decide (r.fraudulent = ['1']) = true) := by rw [h0]; decide
      rw [if_pos (decide_eq_true h0), if_neg hne1]
      omega
    · have hne0 : ¬ (decide (r.fraudulent = ['0']) = true) := by rw [h1]; decide
      rw [if_pos (decide_eq_true h1), if_neg hne0]
      omega

/-- C3 as amended: `total` is always the row count, `fake` counts exactly
the rows labelled `"1"`, `real` counts exactly the rows labelled `"0"`
(not "all others"), and `total = real + fake` holds whenever every row is
labelled `"0"` or `"1"`. -/
theorem classDistribution_spec (data : List DatasetRow) :
    (computeEdaStats data).classDistribution.total = data.length ∧
    (computeEdaStats data).classDistribution.fake =
      data.countP (fun r => decide (r.fraudulent = "1".data)) ∧
    (computeEdaStats data).classDistribution.real =
      data.countP (fun r => decide (r.fraudulent = "0".data)) ∧
    ((∀ r ∈ data, r.fraudulent = "0".data ∨ r.fraudulent = "1".data) →
      (computeEdaStats data).classDistribution.total =
        (computeEdaStats data).classDistribution.real +
          (computeEdaStats data).classDistribution.fake) := by
  refine ⟨rfl,
    (List.countP_eq_length_filter
      (fun (r : DatasetRow) => decide (r.fraudulent = "1".data)) data).symm,
    (List.countP_eq_length_filter
      (fun (r : DatasetRow) => decide (r.fraudulent = "0".data)) data).symm, ?_⟩
  intro hall
  show data.length =
    (data.filter (fun r => decide (r.fraudulent = "0".data))).length +
      (data.filter (fun r => decide (r.fraudulent = "1".data))).length
  rw [← List.countP_eq_length_filter, ← List.countP_eq_length_filter]
  exact length_eq_countP01 data hall

/-- A genuine real row and a genuine fake row for the C3 witness. -/
def rowReal : DatasetRow :=
  { title := "a".data, description := [], company_profile := [], requirements := [],
    benefits := [], fraudulent := "0".data }

def rowFake : DatasetRow :=
  { title := "b".data, description := [], company_profile := [], requirements := [],
    benefits := [], fraudulent := "1".data }

/-- Witness for C3: on a dataset whose labels are all `"0"`/`"1"`, the
amended invariant instantiates to `total = real + fake = 2`. -/
theorem classDistribution_spec_witness :
    (computeEdaStats [rowReal, rowFake]).classDistribution.total =
      (computeEdaStats [rowReal, rowFake]).classDistribution.real +
        (computeEdaStats [rowReal, rowFake]).classDistribution.fake := by
  exact (classDistribution_spec [rowReal, rowFake]).2.2.2 (by decide)

/-- The row of the C6 counterexample: two one-character fields. -/
def rowAB : DatasetRow :=
  { title := "a".data, description := "b".data, company_profile := [], requirements := [],
    benefits := [], fraudulent := "0".data }

/-- C6 counterexample: with `title = "a"` and `description = "b"` the
recorded length is 3 (the joining space counts), not the claimed sum of
field lengths 2. -/
theorem textLength_join_counterexample :
    (textLengthEntry rowAB).length = 3 ∧
    (((rowTextFields rowAB).filter (fun s => !s.isEmpty)).map List.length).sum = 2 := by
  constructor
  · rfl
  · rfl

/-- C6 as amended: each `textLengths` entry records the length of the
space-joined concatenation of the non-empty fields — the sum of the
non-empty field lengths plus one separator per join — and is tagged
`isFake` exactly when `fraudulent = "1"`. -/
theorem textLengths_spec (data : List DatasetRow) (row : DatasetRow) :
    (computeEdaStats data).textLengths = data.map textLengthEntry ∧
    (textLengthEntry row).length =
      (((rowTextFields row).filter (fun s => !s.isEmpty)).map List.length).sum +
        (((rowTextFields row).filter (fun s => !s.isEmpty)).length - 1) ∧
    ((textLengthEntry row).isFake = true ↔ row.fraudulent = "1".data) := by
  refine ⟨rfl, ?_, ?_⟩
  · exact joinSep_length _
  · simp [textLengthEntry]

/-- Witness for C6: the amended length formula instantiated at the
concrete two-field row. -/
theorem textLengths_spec_witness :
    (textLengthEntry rowAB).length = 2 + (2 - 1) := by
  have h := (textLengths_spec [] rowAB).2.1
  exact h.trans (by decide)

/-- C10: a row whose `fraudulent` label is neither `"0"` nor `"1"` is
counted in `total`, contributes a `textLengths` entry tagged `isFake =
false`, and has its missing fields counted under `missingValues.real`,
yet contributes to neither `real` nor `fake` class counts and to neither
word-frequency list. -/
theorem unknownLabel_row_spec (data : List DatasetRow) (row : DatasetRow)
    (h0 : row.fraudulent ≠ "0".data) (h1 : row.fraudulent ≠ "1".data) :
    (computeEdaStats (data ++ [row])).classDistribution.total = data.length + 1 ∧
    (computeEdaStats (data ++ [row])).classDistribution.real =
      (computeEdaStats data).classDistribution.real ∧
    (computeEdaStats (data ++ [row])).classDistribution.fake =
      (computeEdaStats data).classDistribution.fake ∧
    (computeEdaStats (data ++ [row])).textLengths =
      (computeEdaStats data).textLengths ++ [textLengthEntry row] ∧
    (textLengthEntry row).isFake = false ∧
    (computeEdaStats (data ++ [row])).realWords = (computeEdaStats data).realWords ∧
    (computeEdaStats (data ++ [row])).fakeWords = (computeEdaStats data).fakeWords ∧
    (computeMissingValues (data ++ [row])).fake = (computeMissingValues data).fake ∧
    (computeMissingValues (data ++ [row])).real.title =
      (computeMissingValues data).real.title +
        (if isMissingField row.title then 1 else 0) ∧
    (computeMissingValues (data ++ [row])).real.description =
      (computeMissingValues data).real.description +
        (if isMissingField row.description then 1 else 0) ∧
    (computeMissingValues (data ++ [row])).real.company_profile =
      (computeMissingValues data).real.company_profile +
        (if isMissingField row.company_profile then 1 else 0) ∧
    (computeMissingValues (data ++ [row])).real.requirements =
      (computeMissingValues data).real.requirements +
        (if isMissingField row.requirements then 1 else 0) ∧
    (computeMissingValues (data ++ [row])).real.benefits =
      (computeMissingValues data).real.benefits +
        (if isMissingField row.benefits then 1 else 0) := by
  have e0 : decide (row.fraudulent = ['0']) = false := decide_eq_false (strData0 ▸ h0)
  have e1 : decide (row.fraudulent = ['1']) = false := decide_eq_false (strData1 ▸ h1)
  refine ⟨?_, ?_, ?_, ?_, ?_, ?_, ?_, ?_, ?_, ?_, ?_, ?_, ?_⟩
  · simp [computeEdaStats]
  · simp [computeEdaStats, List.filter_append, List.filter_cons, e0]
  · simp [computeEdaStats, List.filter_append, List.filter_cons, e1]
  · simp [computeEdaStats]
  · simp [textLengthEntry, strData1 ▸ h1]
  · simp [computeEdaStats, List.filter_append, List.filter_cons, e0]
  · simp [computeEdaStats, List.filter_append, List.filter_cons, e1]
  · simp [computeMissingValues, List.filter_append, List.filter_cons, e1]
  · simp [computeMissingValues, fieldCountsOf, List.filter_append, List.filter_cons,
      e1, List.countP_append, List.countP_cons]
  · simp [computeMissingValues, fieldCountsOf, List.filter_append, List.filter_cons,
      e1, List.countP_append, List.countP_cons]
  · simp [computeMissingValues, fieldCountsOf, List.filter_append, List.filter_cons,
      e1, List.countP_append, List.countP_cons]
  · simp [computeMissingValues, fieldCountsOf, List.filter_append, List.filter_cons,
      e1, List.countP_append, List.countP_cons]
  · simp [computeMissingValues, fieldCountsOf, List.filter_append, List.filter_cons,
      e1, List.countP_append, List.countP_cons]

/-- Witness for C10: instantiating at the concrete `"2"`-labelled row. -/
theorem unknownLabel_row_spec_witness :
    (computeEdaStats [rowU]).classDistribution.total = 1 ∧
    (computeEdaStats [rowU]).textLengths = [textLengthEntry rowU] ∧
    (textLengthEntry rowU).isFake = false := by
  have h := unknownLabel_row_spec [] rowU (by decide) (by decide)
  exact ⟨h.1, h.2.2.2.1, h.2.2.2.2.1⟩

theorem filter_orderedInsert_of_eq (x : List Char × Nat) (l : List (List Char × Nat))
    (f : Nat) (hx : x.2 = f) :
    (List.orderedInsert freqGe x l).filter (fun e => decide (e.2 = f)) =
      x :: l.filter (fun e => decide (e.2 = f)) := by
  induction l with
  | nil =>
    simp only [List.orderedInsert_nil, List.filter_cons, List.filter_nil]
    rw [if_pos (by simpa using hx)]
  | cons y ys ih =>
    simp only [List.orderedInsert]
    by_cases h : freqGe x y
    · rw [if_pos h, List.filter_cons_of_pos (by simpa using hx)]
    · have hy : ¬ (y.2 = f) := by
        simp only [freqGe] at h
        omega
      rw [if_neg h, List.filter_cons_of_neg (by simpa using hy), ih,
        List.filter_cons_of_neg (by simpa using hy)]

theorem filter_orderedInsert_of_ne (x : List Char × Nat) (l : List (List Char × Nat))
    (f : Nat) (hx : ¬ (x.2 = f)) :
    (List.orderedInsert freqGe x l).filter (fun e => decide (e.2 = f)) =
      l.filter (fun e => decide (e.2 = f)) := by
  induction l with
  | nil =>
    simp only [List.orderedInsert_nil, List.filter_cons, List.filter_nil]
    rw [if_neg (by simpa using hx)]
  | cons y ys ih =>
    simp only [List.orderedInsert]
    by_cases h : freqGe x y
    · rw [if_pos h, List.filter_cons_of_neg (by simpa using hx)]
    · by_cases hy : y.2 = f
      · rw [if_neg h, List.filter_cons_of_pos (by simpa using hy), ih,
          List.filter_cons_of_pos (by simpa using hy)]
      · rw [if_neg h, List.filter_cons_of_neg (by simpa using hy), ih,
          List.filter_cons_of_neg (by simpa using hy)]

/-- Stability of the descending-frequency sort: it never reorders entries
of equal frequency, so restricting to one frequency value preserves the
enumeration order. -/
theorem filter_sortByFreqDesc (l : List (List Char × Nat)) (f : Nat) :
    (sortByFreqDesc l).filter (fun e => decide (e.2 = f)) =
      l.filter (fun e => decide (e.2 = f)) := by
  induction l with
  | nil => rfl
  | cons x xs ih =>
    simp only [sortByFreqDesc, List.insertionSort] at ih ⊢
    by_cases hx : x.2 = f
    · rw [filter_orderedInsert_of_eq _ _ _ hx, ih,
        List.filter_cons_of_pos (by simpa using hx)]
    · rw [filter_orderedInsert_of_ne _ _ _ hx, ih,
        List.filter_cons_of_neg (by simpa using hx)]

/-- The row of the C4 counterexample: its word text is `"zebra 1"`, so
the word `"1"` (an array-index-like key) is enumerated by
`Object.entries` before the earlier-encountered `"zebra"`. -/
def rowZ : DatasetRow :=
  { title := "zebra 1".data, description := [], company_profile := [], requirements := [],
    benefits := [], fraudulent := "0".data }

/-- C4 counterexample: the frequency table in first-encountered order is
`[zebra, 1]`, so the claimed tie-break (stable sort of first-encountered
order) would output `[zebra, 1]`; the code actually outputs `[1, zebra]`
because `Object.entries` lists the array-index-like key `"1"` first. -/
theorem wordFreq_tiebreak_counterexample :
    (computeEdaStats [rowZ]).realWords = [("1".data, 1), ("zebra".data, 1)] ∧
    wordFreqTable [rowZ] = [("zebra".data, 1), ("1".data, 1)] ∧
    (sortByFreqDesc (wordFreqTable [rowZ])).take 100 =
      [("zebra".data, 1), ("1".data, 1)] := by
  refine ⟨by decide, by decide, by decide⟩

/-- C4 as amended: both per-class lists come from `extractWords`; every
`extractWords` output has at most 100 entries and is sorted by descending
frequency, and ties are broken by the `Object.entries` enumeration order
of the frequency table (array-index-like words first in ascending numeric
order, then the remaining words in first-encountered order): for each
frequency the output entries form a prefix of the enumeration restricted
to that frequency. -/
theorem wordFreq_top100_spec (data : List DatasetRow) :
    (computeEdaStats data).realWords =
      extractWords (data.filter (fun r => decide (r.fraudulent = "0".data))) ∧
    (computeEdaStats data).fakeWords =
      extractWords (data.filter (fun r => decide (r.fraudulent = "1".data))) ∧
    ∀ jobs : List DatasetRow,
      (extractWords jobs).length ≤ 100 ∧
      List.Sorted freqGe (extractWords jobs) ∧
      ∀ f : Nat, ∃ t,
        (extractWords jobs).filter (fun e => decide (e.2 = f)) ++ t =
          (jsEntries (wordFreqTable jobs)).filter (fun e => decide (e.2 = f)) := by
  refine ⟨rfl, rfl, fun jobs => ⟨?_, ?_, ?_⟩⟩
  · exact List.length_take_le 100 _
  · exact List.Pairwise.sublist (List.take_sublist _ _)
      (List.sorted_insertionSort freqGe _)
  · intro f
    refine ⟨((sortByFreqDesc (jsEntries (wordFreqTable jobs))).drop 100).filter
      (fun e => decide (e.2 = f)), ?_⟩
    calc ((sortByFreqDesc (jsEntries (wordFreqTable jobs))).take 100).filter
          (fun e => decide (e.2 = f)) ++
        ((sortByFreqDesc (jsEntries (wordFreqTable jobs))).drop 100).filter
          (fun e => decide (e.2 = f))
        = (sortByFreqDesc (jsEntries (wordFreqTable jobs))).filter
            (fun e => decide (e.2 = f)) := by
          rw [← List.filter_append, List.take_append_drop]
      _ = (jsEntries (wordFreqTable jobs)).filter (fun e => decide (e.2 = f)) :=
          filter_sortByFreqDesc _ f

/-- The five-number summary produced by `stats`. -/
structure FiveNum where
  min : Nat
  q1 : Nat
  median : Nat
  q3 : Nat
  max : Nat
deriving DecidableEq, Repr

/-- Model of `[...arr].sort((a, b) => a - b)`: the ascending numeric sort of the
array; any sorted permutation (`insertionSort` here) is the result. -/
def sortAsc (l : List Nat) : List Nat :=
  List.insertionSort (fun a b => a ≤ b) l

/-- Model of `Math.min(...arr)` (the code only applies it to non-empty arrays). -/
def jsMin : List Nat → Nat
  | [] => 0
  | x :: xs => xs.foldl min x

/-- Model of `Math.max(...arr)` (the code only applies it to non-empty arrays). -/
def jsMax : List Nat → Nat
  | [] => 0
  | x :: xs => xs.foldl max x

/-- The `stats` helper (`src/app.js` lines 656-666): the quartile indices
`Math.floor(n * 0.25)`, `Math.floor(n * 0.5)`, `Math.floor(n * 0.75)` are
exact in floating point and equal `n / 4`, `n / 2`, `3 * n / 4` over
`Nat`. -/
def stats (arr : List Nat) : FiveNum :=
  let sorted := sortAsc arr
  let n := sorted.length
  { min := jsMin arr,
    q1 := sorted.getD (n / 4) 0,
    median := sorted.getD (n / 2) 0,
    q3 := sorted.getD (3 * n / 4) 0,
    max := jsMax arr }

theorem foldl_min_le_self (xs : List Nat) (a : Nat) : xs.foldl min a ≤ a := by
  induction xs generalizing a with
  | nil => simp
  | cons y ys ih =>
    simp only [List.foldl_cons]
    exact (ih (min a y)).trans (Nat.min_le_left a y)

theorem foldl_min_le_mem (xs : List Nat) : ∀ a, ∀ x ∈ xs, xs.foldl min a ≤ x := by
  induction xs with
  | nil => intro a x hx; cases hx
  | cons y ys ih =>
    intro a x hx
    simp only [List.foldl_cons]
    rcases List.mem_cons.mp hx with rfl | hmem
    · exact (foldl_min_le_self ys (min a x)).trans (Nat.min_le_right a x)
    · exact ih (min a y) x hmem

theorem foldl_min_mem (xs : List Nat) : ∀ a, xs.foldl min a = a ∨ xs.foldl min a ∈ xs := by
  induction xs with
  | nil => intro a; left; rfl
  | cons y ys ih =>
    intro a
    simp only [List.foldl_cons]
    rcases ih (min a y) with h | h
    · rw [h]
      rcases min_choice a y with h2 | h2
      · left; exact h2
      · right; rw [h2]; exact List.mem_cons_self y ys
    · right; exact List.mem_cons_of_mem y h

theorem le_foldl_max (xs : List Nat) (a : Nat) : a ≤ xs.foldl max a := by
  induction xs generalizing a with
  | nil => simp
  | cons y ys ih =>
    simp only [List.foldl_cons]
    exact (Nat.le_max_left a y).trans (ih (max a y))

theorem mem_le_foldl_max (xs : List Nat) : ∀ a, ∀ x ∈ xs, x ≤ xs.foldl max a := by
  induction xs with
  | nil => intro a x hx; cases hx
  | cons y ys ih =>
    intro a x hx
    simp only [List.foldl_cons]
    rcases List.mem_cons.mp hx with rfl | hmem
    · exact (Nat.le_max_right a x).trans (le_foldl_max ys (max a x))
    · exact ih (max a y) x hmem

theorem foldl_max_mem (xs : List Nat) : ∀ a, xs.foldl max a = a ∨ xs.foldl max a ∈ xs := by
  induction xs with
  | nil => intro a; left; rfl
  | cons y ys ih =>
    intro a
    simp only [List.foldl_cons]
    rcases ih (max a y) with h | h
    · rw [h]
      rcases max_choice a y with h2 | h2
      · left; exact h2
      · right; rw [h2]; exact List.mem_cons_self y ys
    · right; exact List.mem_cons_of_mem y h

theorem jsMin_le (l : List Nat) : ∀ x ∈ l, jsMin l ≤ x := by
  cases l with
  | nil => intro x hx; cases hx
  | cons a t =>
    intro x hx
    rcases List.mem_cons.mp hx with rfl | hmem
    · exact foldl_min_le_self t x
    · exact foldl_min_le_mem t a x hmem

theorem jsMin_mem (l : List Nat) (h : l ≠ []) : jsMin l ∈ l := by
  cases l with
  | nil => exact absurd rfl h
  | cons a t =>
    rcases foldl_min_mem t a with h2 | h2
    · rw [show jsMin (a :: t) = t.foldl min a from rfl, h2]
      exact List.mem_cons_self a t
    · exact List.mem_cons_of_mem a h2

theorem le_jsMax (l : List Nat) : ∀ x ∈ l, x ≤ jsMax l := by
  cases l with
  | nil => intro x hx; cases hx
  | cons a t =>
    intro x hx
    rcases List.mem_cons.mp hx with rfl | hmem
    · exact le_foldl_max t x
    · exact mem_le_foldl_max t a x hmem

theorem jsMax_mem (l : List Nat) (h : l ≠ []) : jsMax l ∈ l := by
  cases l with
  | nil => exact absurd rfl h
  | cons a t =>
    rcases foldl_max_mem t a with h2 | h2
    · rw [show jsMax (a :: t) = t.foldl max a from rfl, h2]
      exact List.mem_cons_self a t
    · exact List.mem_cons_of_mem a h2

theorem headI_mem (l : List Nat) (h : l ≠ []) : l.headI ∈ l := by
  cases l with
  | nil => exact absurd rfl h
  | cons a t => exact List.mem_cons_self a t

theorem sorted_headI_le (s : List Nat) (hs : s.Sorted (fun a b => a ≤ b)) :
    ∀ x ∈ s, s.headI ≤ x := by
  cases s with
  | nil => intro x hx; cases hx
  | cons a t =>
    intro x hx
    rcases List.mem_cons.mp hx with rfl | hmem
    · exact Nat.le_refl x
    · exact (List.sorted_cons.mp hs).1 x hmem

theorem getLastD_mem (l : List Nat) (h : l ≠ []) : l.getLastD 0 ∈ l := by
  cases l with
  | nil => exact absurd rfl h
  | cons a t =>
    rw [List.getLastD_cons]
    exact List.getLastD_mem_cons t a

theorem sorted_le_getLastD : ∀ (s : List Nat), s.Sorted (fun a b => a ≤ b) →
    ∀ x ∈ s, x ≤ s.getLastD 0
  | [], _, x, hx => absurd hx (by simp)
  | [a], _, x, hx => by
    rcases List.mem_cons.mp hx with rfl | hmem
    · exact Nat.le_refl x
    · cases hmem
  | a :: b :: t, hs, x, hx => by
    have hab : a ≤ b := (List.sorted_cons.mp hs).1 b (List.mem_cons_self b t)
    have hrest : (b :: t).Sorted (fun a b => a ≤ b) := (List.sorted_cons.mp hs).2
    rw [List.getLastD_cons]
    have hlast : ∀ y ∈ b :: t, y ≤ (b :: t).getLastD 0 :=
      sorted_le_getLastD (b :: t) hrest
    rcases List.mem_cons.mp hx with rfl | hmem
    · exact (hab.trans (hlast b (List.mem_cons_self b t)))
    · exact hlast x hmem

/-- C5: for a non-empty array, `stats` returns the head (minimum) and
last element (maximum) of the unique ascending sorted permutation, and
the nearest-rank quartiles at indices `floor(n/4)`, `floor(n/2)`,
`floor(3n/4)` of that sorted sequence. -/
theorem fiveNumberSummary_spec (arr s : List Nat) (hne : arr ≠ [])
    (hperm : s.Perm arr) (hsort : s.Sorted (fun a b => a ≤ b)) :
    stats arr =
      { min := s.headI,
        q1 := s.getD (arr.length / 4) 0,
        median := s.getD (arr.length / 2) 0,
        q3 := s.getD (3 * arr.length / 4) 0,
        max := s.getLastD 0 } := by
  have hseq : s = sortAsc arr :=
    List.eq_of_perm_of_sorted (hperm.trans (List.perm_insertionSort _ arr).symm) hsort
      (List.sorted_insertionSort _ arr)
  have hlen : (sortAsc arr).length = arr.length :=
    (List.perm_insertionSort _ arr).length_eq
  have hsne : s ≠ [] := by
    intro h
    subst h
    exact hne hperm.symm.eq_nil
  have hminmem : jsMin arr ∈ s := hperm.mem_iff.mpr (jsMin_mem arr hne)
  have hheadmem : s.headI ∈ arr := hperm.mem_iff.mp (headI_mem s hsne)
  have hmin : jsMin arr = s.headI :=
    Nat.le_antisymm (jsMin_le arr s.headI hheadmem)
      (sorted_headI_le s hsort (jsMin arr) hminmem)
  have hmaxmem : jsMax arr ∈ s := hperm.mem_iff.mpr (jsMax_mem arr hne)
  have hlastmem : s.getLastD 0 ∈ arr := hperm.mem_iff.mp (getLastD_mem s hsne)
  have hmax : jsMax arr = s.getLastD 0 :=
    Nat.le_antisymm (sorted_le_getLastD s hsort (jsMax arr) hmaxmem)
      (le_jsMax arr (s.getLastD 0) hlastmem)
  simp only [stats, FiveNum.mk.injEq, hlen]
  refine ⟨hmin, ?_, ?_, ?_, hmax⟩ <;> rw [hseq]

/-- Witness for C5: the two concrete checks of the claim. -/
theorem fiveNumberSummary_spec_witness :
    (stats [1, 2, 3, 4, 5]).median = 3 ∧ (stats [1, 2, 3, 4]).q1 = 2 := by
  have h1 := fiveNumberSummary_spec [1, 2, 3, 4, 5] [1, 2, 3, 4, 5] (by decide)
    (List.Perm.refl _) (by decide)
  have h2 := fiveNumberSummary_spec [1, 2, 3, 4] [1, 2, 3, 4] (by decide)
    (List.Perm.refl _) (by decide)
  constructor
  · rw [h1]
    decide
  · rw [h2]
    decide

/-- Model of `getFullText`: each form field's value is trimmed, blank results are
dropped, the rest are joined with single spaces. -/
def getFullText (fields : List (List Char)) : List Char :=
  joinSep ((fields.map jsTrim).filter (fun s => !s.isEmpty))

/-- Outcome of the awaited calls inside `predictJob`'s `try` block: the
model execution can throw, reading the output tensor's data can throw, or
a probability is produced. -/
inductive InferOutcome where
  | execThrows : InferOutcome
  | dataThrows : InferOutcome
  | ok : ℚ → InferOutcome
deriving DecidableEq

/-- Observable effects of one `predictJob` run: whether an alert was
shown, whether `tokenizeText` was invoked, how many tensors were
allocated and how many explicitly disposed, the displayed probability
(if any), and the submit button's disabled state when the handler
finishes. -/
structure PredictRun where
  alerted : Bool
  invokedTokenize : Bool
  tensorsAllocated : Nat
  tensorsDisposed : Nat
  displayed : Option ℚ
  btnDisabledAtEnd : Bool
deriving DecidableEq

/-- The early-return state of `predictJob` when every field is blank:
an alert, no tokenization, no tensors, no display, button untouched
(enabled). -/
def blankRun : PredictRun :=
  { alerted := true, invokedTokenize := false, tensorsAllocated := 0,
    tensorsDisposed := 0, displayed := none, btnDisabledAtEnd := false }

/-- Model of `predictJob` in the graph-model variant (`src/app.js` lines 266-304):
on the success path the input tensor and the output tensor are disposed
after `displayPrediction`; when `executeAsync` throws only the input
tensor exists and nothing is disposed; when `outputTensor.data()` throws
both tensors exist and nothing is disposed; the `finally` block always
re-enables the button. -/
def predictJob_graph (_wi : WordIndex) (_maxLen : Nat) (fields : List (List Char))
    (outcome : InferOutcome) : PredictRun :=
  if (jsTrim (getFullText fields)).isEmpty then blankRun
  else
    match outcome with
    | .execThrows =>
      { alerted := true, invokedTokenize := true, tensorsAllocated := 1,
        tensorsDisposed := 0, displayed := none, btnDisabledAtEnd := false }
    | .dataThrows =>
      { alerted := true, invokedTokenize := true, tensorsAllocated := 2,
        tensorsDisposed := 0, displayed := none, btnDisabledAtEnd := false }
    | .ok q =>
      { alerted := false, invokedTokenize := true, tensorsAllocated := 2,
        tensorsDisposed := 2, displayed := some q, btnDisabledAtEnd := false }

/-- Model of `predictJob` in the layers-model variant (`src/app.js` lines
516-543): identical, except that `tokenizeText` itself may throw (the
`Array(negative)` RangeError of `tokenizeText_layers`), in which case no
tensor was created and the `catch`/`finally` blocks run. -/
def predictJob_layers (wi : WordIndex) (maxLen : Nat) (fields : List (List Char))
    (outcome : InferOutcome) : PredictRun :=
  if (jsTrim (getFullText fields)).isEmpty then blankRun
  else
    match tokenizeText_layers wi maxLen (getFullText fields) with
    | none =>
      { alerted := true, invokedTokenize := true, tensorsAllocated := 0,
        tensorsDisposed := 0, displayed := none, btnDisabledAtEnd := false }
    | some _ =>
      match outcome with
      | .execThrows =>
        { alerted := true, invokedTokenize := true, tensorsAllocated := 1,
          tensorsDisposed := 0, displayed := none, btnDisabledAtEnd := false }
      | .dataThrows =>
        { alerted := true, invokedTokenize := true, tensorsAllocated := 2,
          tensorsDisposed := 0, displayed := none, btnDisabledAtEnd := false }
      | .ok q =>
        { alerted := false, invokedTokenize := true, tensorsAllocated := 2,
          tensorsDisposed := 2, displayed := some q, btnDisabledAtEnd := false }

/-- A JavaScript number as far as the `/predict` response handling
distinguishes values: `NaN` or an actual (rational) value. -/
inductive JsNum where
  | nan : JsNum
  | val : ℚ → JsNum
deriving DecidableEq

/-- A JSON response field as the handler inspects it with `typeof`:
absent, present but not a number, or a number. -/
inductive JsField where
  | missing : JsField
  | nonNumber : JsField
  | number : JsNum → JsField
deriving DecidableEq

def isNumberField : JsField → Bool
  | .number _ => true
  | _ => false

/-- The parsed `/predict` response: `response.ok` plus the two candidate
probability fields of the JSON body. -/
structure RemoteResponse where
  ok : Bool
  fraud_proba : JsField
  probability : JsField
deriving DecidableEq

/-- The nested conditional computing `probaRaw`
(`src/unnamed/part_000` lines 92-97): `fraud_proba` if it is a number
(`typeof` is `"number"`, which includes `NaN`), else `probability` if it
is a number, else `null`. -/
def selectProbaRaw (r : RemoteResponse) : Option JsNum :=
  match r.fraud_proba with
  | .number v => some v
  | _ =>
    match r.probability with
    | .number v => some v
    | _ => none

/-- Model of `Math.min(Math.max(p, 0), 1)`. -/
def clamp01 (q : ℚ) : ℚ := min (max q 0) 1

/-- The response handling of `setupPredictionForm`
(`src/unnamed/part_000` lines 77-103): throw on non-2xx status, throw
when `probaRaw` is `null` or `NaN`, otherwise display the clamped
probability. -/
def handlePredictResponse (r : RemoteResponse) : Except Unit ℚ :=
  if !r.ok then .error ()
  else
    match selectProbaRaw r with
    | none => .error ()
    | some JsNum.nan => .error ()
    | some (JsNum.val q) => .ok (clamp01 q)

/-- Observable effects of one remote form submission: whether a
`/predict` request was sent, the `full_text` payload, the displayed
probability or the error panel, and the button state after `finally`. -/
structure RemoteRun where
  requestSent : Bool
  payloadFullText : List Char
  displayed : Option ℚ
  errorShown : Bool
  btnDisabledAtEnd : Bool
deriving DecidableEq

/-- The `full_text` payload: the nine raw field values joined with single
spaces, with no trimming and no blank check
(`src/unnamed/part_000` lines 42-73). -/
def remoteFullText (title company_profile description requirements benefits
    location salary_range employment_type industry : List Char) : List Char :=
  title ++ ' ' :: (company_profile ++ ' ' :: (description ++ ' ' ::
    (requirements ++ ' ' :: (benefits ++ ' ' :: (location ++ ' ' ::
      (salary_range ++ ' ' :: (employment_type ++ ' ' :: industry)))))))

/-- The submit handler of `setupPredictionForm`
(`src/unnamed/part_000` lines 35-145): it always builds the payload and
always sends the request; the `finally` block re-enables the button. -/
def remoteSubmit (title company_profile description requirements benefits
    location salary_range employment_type industry : List Char)
    (resp : RemoteResponse) : RemoteRun :=
  let full_text := remoteFullText title company_profile description requirements
    benefits location salary_range employment_type industry
  match handlePredictResponse resp with
  | .ok q =>
    { requestSent := true, payloadFullText := full_text, displayed := some q,
      errorShown := false, btnDisabledAtEnd := false }
  | .error _ =>
    { requestSent := true, payloadFullText := full_text, displayed := none,
      errorShown := true, btnDisabledAtEnd := false }

/-- The concrete non-blank form of the C7 counterexample. -/
def fieldsEx : List (List Char) := ["Fake job".data]

/-- C7 counterexample: when model execution throws, the already-allocated
input tensor is never disposed (the `dispose` calls sit inside the `try`
block after the failure point), refuting "released on both the success
and the failure path". -/
theorem tensor_dispose_counterexample :
    (predictJob_graph [] 300 fieldsEx InferOutcome.execThrows).tensorsAllocated = 1 ∧
    (predictJob_graph [] 300 fieldsEx InferOutcome.execThrows).tensorsDisposed = 0 := by
  refine ⟨by decide, by decide⟩

/-- C7 as amended: on the success path every allocated tensor is disposed
before the handler completes, but on either failure path (model execution
throws, or reading the prediction data throws) nothing is disposed; the
`finally` block still re-enables the submit button on every path.  This
holds for both the graph-model and the layers-model variant. -/
theorem tensor_dispose_spec (wi : WordIndex) (maxLen : Nat)
    (fields : List (List Char)) (q : ℚ) :
    (predictJob_graph wi maxLen fields (.ok q)).tensorsDisposed =
      (predictJob_graph wi maxLen fields (.ok q)).tensorsAllocated ∧
    (predictJob_graph wi maxLen fields .execThrows).tensorsDisposed = 0 ∧
    (predictJob_graph wi maxLen fields .dataThrows).tensorsDisposed = 0 ∧
    (∀ o : InferOutcome, (predictJob_graph wi maxLen fields o).btnDisabledAtEnd = false) ∧
    (predictJob_layers wi maxLen fields (.ok q)).tensorsDisposed =
      (predictJob_layers wi maxLen fields (.ok q)).tensorsAllocated ∧
    (predictJob_layers wi maxLen fields .execThrows).tensorsDisposed = 0 ∧
    (predictJob_layers wi maxLen fields .dataThrows).tensorsDisposed = 0 ∧
    (∀ o : InferOutcome, (predictJob_layers wi maxLen fields o).btnDisabledAtEnd = false) := by
  refine ⟨?_, ?_, ?_, ?_, ?_, ?_, ?_, ?_⟩ <;>
    first
      | (intro o
         cases o <;>
           simp only [predictJob_graph, predictJob_layers, blankRun] <;>
           (split <;> try split) <;> rfl)
      | (simp only [predictJob_graph, predictJob_layers, blankRun] <;>
           (split <;> try split) <;> rfl)

/-- C8: the `/predict` response handling errors exactly on a non-2xx
status, on both fields missing or non-numeric, or on a selected `NaN`
value; otherwise it succeeds with the preferred numeric field
(`fraud_proba` before `probability`) clamped into `[0, 1]`. -/
theorem predictResponse_spec (r : RemoteResponse) :
    ((r.ok = false → handlePredictResponse r = .error ()) ∧
      (selectProbaRaw r = none → handlePredictResponse r = .error ()) ∧
      (selectProbaRaw r = some JsNum.nan → handlePredictResponse r = .error ())) ∧
    (∀ q : ℚ, r.ok = true → selectProbaRaw r = some (JsNum.val q) →
      handlePredictResponse r = .ok (clamp01 q)) ∧
    (∀ v : JsNum, r.fraud_proba = .number v → selectProbaRaw r = some v) ∧
    (isNumberField r.fraud_proba = false →
      ∀ v : JsNum, r.probability = .number v → selectProbaRaw r = some v) ∧
    (isNumberField r.fraud_proba = false → isNumberField r.probability = false →
      selectProbaRaw r = none) ∧
    (∀ q : ℚ, handlePredictResponse r = .ok q → 0 ≤ q ∧ q ≤ 1) := by
  obtain ⟨ok, fp, pb⟩ := r
  refine ⟨⟨?_, ?_, ?_⟩, ?_, ?_, ?_, ?_, ?_⟩
  · intro h
    subst h
    rfl
  · intro h
    cases ok <;> simp [handlePredictResponse, h]
  · intro h
    cases ok <;> simp [handlePredictResponse, h]
  · intro q hok hsel
    subst hok
    simp [handlePredictResponse, hsel]
  · intro v h
    subst h
    rfl
  · intro hfp v h
    subst h
    cases fp <;> simp [selectProbaRaw] <;> simp [isNumberField] at hfp
  · intro hfp hpb
    cases fp <;> cases pb <;>
      first
        | rfl
        | simp [isNumberField] at hfp hpb
  · intro q h
    cases ok
    · simp [handlePredictResponse] at h
    · rcases hsel : selectProbaRaw ⟨true, fp, pb⟩ with _ | v
      · simp [handlePredictResponse, hsel] at h
      · cases v with
        | nan => simp [handlePredictResponse, hsel] at h
        | val q0 =>
          simp only [handlePredictResponse, hsel, Bool.not_true, if_neg] at h
          have hq : q = clamp01 q0 := by
            simpa using h.symm
          subst hq
          constructor
          · exact le_min (le_max_right q0 0) (by norm_num)
          · exact min_le_right _ 1

/-- Witness for C8: a successful response with `fraud_proba = 2` is
clamped to probability 1. -/
theorem predictResponse_spec_witness :
    handlePredictResponse
      { ok := true, fraud_proba := JsField.number (JsNum.val 2),
        probability := JsField.missing } = Except.ok 1 := by
  have h := (predictResponse_spec
    { ok := true, fraud_proba := JsField.number (JsNum.val 2),
      probability := JsField.missing }).2.1 2 rfl rfl
  refine h.trans ?_
  norm_num [clamp01]

theorem getFullText_blank (fields : List (List Char))
    (h : ∀ f ∈ fields, jsTrim f = []) : getFullText fields = [] := by
  unfold getFullText
  have hfil : (fields.map jsTrim).filter (fun s => !s.isEmpty) = [] := by
    rw [List.filter_eq_nil_iff]
    intro a ha
    rcases List.mem_map.mp ha with ⟨f, hf, rfl⟩
    simp [h f hf]
  rw [hfil]
  rfl

/-- C9 counterexample: in the remote variant the submit handler has no
blank-input check at all — with all nine fields blank it still sends the
`/predict` request, with `full_text` equal to the eight joining
spaces. -/
theorem blankForm_remote_counterexample :
    (remoteSubmit [] [] [] [] [] [] [] [] []
      { ok := false, fraud_proba := JsField.missing,
        probability := JsField.missing }).requestSent = true ∧
    (remoteSubmit [] [] [] [] [] [] [] [] []
      { ok := false, fraud_proba := JsField.missing,
        probability := JsField.missing }).payloadFullText =
      List.replicate 8 ' ' := by
  refine ⟨rfl, by decide⟩

/-- C9 as amended: in both local-model variants an all-blank submission
short-circuits into the alert state — no tokenization, no tensors, no
display, submit control left enabled; the remote variant instead always
sends the request, even for the all-blank form. -/
theorem blankForm_spec (wi : WordIndex) (maxLen : Nat) (fields : List (List Char))
    (o : InferOutcome) (resp : RemoteResponse)
    (h : ∀ f ∈ fields, jsTrim f = []) :
    predictJob_graph wi maxLen fields o = blankRun ∧
    predictJob_layers wi maxLen fields o = blankRun ∧
    (remoteSubmit [] [] [] [] [] [] [] [] [] resp).requestSent = true := by
  have hg : getFullText fields = [] := getFullText_blank fields h
  refine ⟨?_, ?_, ?_⟩
  · unfold predictJob_graph
    rw [hg]
    rfl
  · unfold predictJob_layers
    rw [hg]
    rfl
  · cases hh : handlePredictResponse resp <;> simp [remoteSubmit, hh]

/-- Witness for C9: a form whose single field is one space is blank, so
the graph-variant handler ends in the alert state with the button
enabled. -/
theorem blankForm_spec_witness :
    predictJob_graph [] 300 [" ".data] InferOutcome.execThrows = blankRun := by
  have h := blankForm_spec [] 300 [" ".data] InferOutcome.execThrows
    { ok := true, fraud_proba := JsField.missing, probability := JsField.missing }
    (by decide)
  exact h.1
